import Mathlib

/-!
Shallow embedding of the identity/session subsystem and the note
repository of the note-taking service (backend/auth.js, backend/notes.js
and the Express entry point), together with proofs of the specified
properties.  Times are modelled as natural numbers (milliseconds, except
JWT `iat`/`exp` which are seconds, as in the source); the external
bcrypt and jsonwebtoken libraries are modelled abstractly but faithfully
to how the code uses them (a salted hash as an injective tagging
function, a JWT as a payload carried with the signing secret).
-/

namespace NoteApp

/-- The process secret (auth.js line 8). -/
def SECRET : String := "supersecretkey-change-in-production"

/-- Abstract model of `bcrypt.hash`: a one-way tagged encoding of the
password.  Only the equation tested by `bcrypt.compare` matters. -/
def bcryptHash (password : String) : String := "bcrypt$2a$12$" ++ password

/-- Abstract model of `bcrypt.compare p h`: true iff `h` is the hash of `p`. -/
def bcryptCompare (password hash : String) : Bool := bcryptHash password == hash

/-- A user record (auth.js `signup`): id, username, stored password hash,
creation time, nullable last-login time, active flag. -/
structure User where
  id : String
  username : String
  password : String
  createdAt : Nat
  lastLogin : Option Nat
  isActive : Bool
  deriving Repr, DecidableEq

/-- A session record (auth.js `login`). -/
structure Session where
  id : String
  userId : String
  username : String
  createdAt : Nat
  lastActivity : Nat
  isActive : Bool
  deriving Repr, DecidableEq

/-- The JWT payload built in `login` (auth.js lines 93-99); `iat`/`exp`
are in seconds, `exp = iat + 24*60*60`. -/
structure Payload where
  id : String
  username : String
  sessionId : String
  iat : Nat
  exp : Nat
  deriving Repr, DecidableEq

/-- A bearer-token input: either a string that does not parse/verify as a
JWT at all, or a payload signed with some secret.  `jwt.sign(payload,
SECRET)` produces `signed payload SECRET`. -/
inductive TokenInput where
  | malformed (raw : String)
  | signed (payload : Payload) (sig : String)
  deriving Repr, DecidableEq

/-- Model of `jwt.verify(token, secret)` at time `now` (seconds): throws
(here: `Except.error`) on malformed input, wrong signature, or an
expired token (jsonwebtoken rejects once `exp <= now`). -/
def jwtVerify (secret : String) (t : TokenInput) (now : Nat) : Except String Payload :=
  match t with
  | .malformed _ => .error "jwt malformed"
  | .signed p sig =>
    if sig ≠ secret then .error "invalid signature"
    else if p.exp ≤ now then .error "jwt expired"
    else .ok p

/-- `findUser` (auth.js lines 16-18): first user with the given username. -/
def findUser (users : List User) (username : String) : Option User :=
  users.find? (fun u => u.username == username)

/-- `findUserById` (auth.js lines 20-22). -/
def findUserById (users : List User) (id : String) : Option User :=
  users.find? (fun u => u.id == id)

/-- The `try`-block body of `verifyTokenSync` (auth.js lines 134-140):
`jwt.verify` may throw (propagated as `Except.error`); otherwise the
decoded payload is returned when its user exists and is active, `null`
(here `none`) otherwise. -/
def verifyTokenSyncBody (users : List User) (t : TokenInput) (now : Nat) :
    Except String (Option Payload) := do
  let decoded ← jwtVerify SECRET t now
  match findUserById users decoded.id with
  | none => pure none
  | some u => if u.isActive then pure (some decoded) else pure none

/-- `verifyTokenSync` (auth.js lines 133-144): the surrounding
`try/catch` turns any thrown error into `null`. -/
def verifyTokenSync (users : List User) (t : TokenInput) (now : Nat) : Option Payload :=
  match verifyTokenSyncBody users t now with
  | .error _ => none
  | .ok o => o

/-- `updateSessionActivity` (auth.js lines 151-156): best-effort touch of
the session's last-activity time; no-op when the id is absent. -/
def updateSessionActivity (sessions : List Session) (sessionId : String) (nowMs : Nat) :
    List Session :=
  sessions.map (fun s => if s.id == sessionId then { s with lastActivity := nowMs } else s)

/-- `logout` (auth.js lines 158-160): `sessions.delete(sessionId)` -
removes the session, returning whether one existed. -/
def logout (sessions : List Session) (sessionId : String) : Bool × List Session :=
  (sessions.any (fun s => s.id == sessionId),
   sessions.filter (fun s => !(s.id == sessionId)))

/-- Result of `login` on success: the signed token, the user projection
(without the hash, with the refreshed last login) and the session id. -/
structure LoginRes where
  token : TokenInput
  userId : String
  userLastLogin : Option Nat
  sessionId : String
  deriving Repr, DecidableEq

/-- Update of `user.lastLogin` on the first user matching the username
(auth.js line 77 mutates the found record in place). -/
def touchLastLogin (users : List User) (username : String) (nowMs : Nat) : List User :=
  match users with
  | [] => []
  | u :: rest =>
    if u.username == username then { u with lastLogin := some nowMs } :: rest
    else u :: touchLastLogin rest username nowMs

/-- `login` (auth.js lines 59-113): requires both fields non-empty, finds
the user, compares the password against the stored hash, and on success
refreshes the last login, opens a session and signs a 24-hour JWT.  Both
failure branches throw the same `Invalid username or password` error.
Returns the outcome together with the updated user and session stores. -/
def login (users : List User) (sessions : List Session) (username password : String)
    (nowMs : Nat) (newSessionId : String) :
    Except String LoginRes × List User × List Session :=
  if username == "" || password == "" then
    (.error "Username and password are required", users, sessions)
  else
    match findUser users username with
    | none => (.error "Invalid username or password", users, sessions)
    | some user =>
      if !bcryptCompare password user.password then
        (.error "Invalid username or password", users, sessions)
      else
        let users' := touchLastLogin users username nowMs
        let session : Session :=
          { id := newSessionId, userId := user.id, username := user.username,
            createdAt := nowMs, lastActivity := nowMs, isActive := true }
        let iat := nowMs / 1000
        let payload : Payload :=
          { id := user.id, username := user.username, sessionId := newSessionId,
            iat := iat, exp := iat + 24 * 60 * 60 }
        (.ok { token := .signed payload SECRET, userId := user.id,
               userLastLogin := some nowMs, sessionId := newSessionId },
         users', sessions ++ [session])

/-- Outcome of the `requireAuth` middleware (server entry point lines
85-111): 401 (missing token), 403 (null payload), success carrying the
decoded payload, or the 500 catch-all. -/
inductive AuthOutcome where
  | missingToken
  | invalidToken
  | ok (payload : Payload)
  | internalError
  deriving Repr, DecidableEq

/-- The `try`-block body of `requireAuth`: everything it calls is total
(`verifyTokenSync` catches internally), so the body is written in
`Except` to record that no error can escape it. -/
def requireAuthBody (users : List User) (sessions : List Session)
    (token : Option TokenInput) (sessionHeader : Option String)
    (nowSec nowMs : Nat) : Except String (AuthOutcome × List Session) :=
  match token with
  | none => pure (.missingToken, sessions)
  | some t =>
    match verifyTokenSync users t nowSec with
    | none => pure (.invalidToken, sessions)
    | some payload =>
      match sessionHeader with
      | some sid => pure (.ok payload, updateSessionActivity sessions sid nowMs)
      | none => pure (.ok payload, sessions)

/-- `requireAuth` (entry point lines 85-111): the `catch` maps any
escaped error to the 500 response. -/
def requireAuth (users : List User) (sessions : List Session)
    (token : Option TokenInput) (sessionHeader : Option String)
    (nowSec nowMs : Nat) : AuthOutcome × List Session :=
  match requireAuthBody users sessions token sessionHeader nowSec nowMs with
  | .error _ => (.internalError, sessions)
  | .ok r => r

/-- A per-client rate window (entry point line 121): `{count, resetTime}`. -/
structure RateEntry where
  count : Nat
  resetTime : Nat
  deriving Repr, DecidableEq

/-- Decision of the rate limiter: allow and call `next()`, or reject with
429 carrying `retryAfter` seconds. -/
inductive RateDecision where
  | allow
  | reject (retryAfter : Nat)
  deriving Repr, DecidableEq

/-- One request through the `rateLimit(maxRequests, windowMs)` middleware
(entry point lines 115-143), for a fixed client: no window or an elapsed
window starts a fresh one with count 1 and lets it pass; a full window rejects
with `retryAfter = ceil((resetTime - now)/1000)`; otherwise the count is
incremented and the request let through. -/
def rateStep (maxRequests windowMs : Nat) (st : Option RateEntry) (now : Nat) :
    RateDecision × RateEntry :=
  match st with
  | none => (.allow, { count := 1, resetTime := now + windowMs })
  | some e =>
    if e.resetTime < now then (.allow, { count := 1, resetTime := now + windowMs })
    else if maxRequests ≤ e.count then
      (.reject ((e.resetTime - now + 999) / 1000), e)
    else (.allow, { e with count := e.count + 1 })

/-- A sequence of requests from one client at the given times, threading
the window state; returns the decisions in order and the final window. -/
def runRequests (maxRequests windowMs : Nat) (st : Option RateEntry) :
    List Nat → List RateDecision × Option RateEntry
  | [] => ([], st)
  | t :: ts =>
    let (d, e) := rateStep maxRequests windowMs st t
    let (ds, st') := runRequests maxRequests windowMs (some e) ts
    (d :: ds, st')

/-- A note record (notes.js `createNote`). -/
structure Note where
  id : String
  owner : String
  title : String
  content : String
  isPublic : Bool
  tags : List String
  category : String
  views : Nat
  createdAt : Nat
  updatedAt : Nat
  isDeleted : Bool
  deletedAt : Option Nat
  deriving Repr, DecidableEq

/-- `createNote` (notes.js lines 76-98): builds the note with defaults
`isPublic=false, tags=[], category="General"`, `views=0`,
`isDeleted=false`, pushes it onto the store and returns it.  There is no
validation of title or content. -/
def createNote (store : List Note) (userId : String)
    (title content : String) (isPublic : Option Bool) (tags : Option (List String))
    (category : Option String) (newId : String) (nowMs : Nat) : Note × List Note :=
  let note : Note :=
    { id := newId, owner := userId, title := title, content := content,
      isPublic := isPublic.getD false, tags := tags.getD [],
      category := category.getD "General", views := 0,
      createdAt := nowMs, updatedAt := nowMs, isDeleted := false, deletedAt := none }
  (note, store ++ [note])

/-- Case-insensitive substring test, the model of JavaScript
`a.toLowerCase().includes(b.toLowerCase())`. -/
def containsCI (hay needle : String) : Bool :=
  decide (List.IsInfix needle.toLower.toList hay.toLower.toList)

/-- The search predicate of `listNotes` (notes.js lines 24-31): the term
occurs (case-insensitively) in the title, the content, or some tag; an
absent/empty search matches everything (an empty string is falsy in JS). -/
def matchesSearch (search : Option String) (n : Note) : Bool :=
  match search with
  | none => true
  | some s =>
    if s == "" then true
    else containsCI n.title s || containsCI n.content s || n.tags.any (fun t => containsCI t s)

/-- The filter predicate of `listNotes` (notes.js lines 34-47): `public`,
`private`, `recent` (last update strictly newer than `now - 7 days`), and
anything else falls through the `switch` unfiltered. -/
def matchesFilter (filter : Option String) (nowMs : Nat) (n : Note) : Bool :=
  match filter with
  | none => true
  | some f =>
    if f == "" then true
    else if f == "public" then n.isPublic
    else if f == "private" then !n.isPublic
    else if f == "recent" then decide (nowMs - 7 * 24 * 60 * 60 * 1000 < n.updatedAt)
    else true

/-- The whole selection predicate of `listNotes`: owned by the caller,
not soft-deleted, and passing the search and filter. -/
def listPred (userId : String) (search filter : Option String) (nowMs : Nat) (n : Note) :
    Bool :=
  n.owner == userId && !n.isDeleted && matchesSearch search n && matchesFilter filter nowMs n

/-- The comparator of `listNotes`'s sort, as a relation: `a` before `b`
when `a` was updated no earlier than `b` (most recent first). -/
def updatedGE (a b : Note) : Prop := b.updatedAt ≤ a.updatedAt

instance : DecidableRel updatedGE := fun a b => Nat.decLe b.updatedAt a.updatedAt

instance : IsTotal Note updatedGE := ⟨fun a b => Nat.le_total b.updatedAt a.updatedAt⟩

instance : IsTrans Note updatedGE :=
  ⟨fun _ _ _ h h' => Nat.le_trans h' h⟩

/-- `listNotes` (notes.js lines 17-57): filter the store by owner,
liveness, search and filter, then sort by last update descending (a
stable sort, as JavaScript's `Array.prototype.sort` is). -/
def listNotes (store : List Note) (userId : String) (search filter : Option String)
    (nowMs : Nat) : List Note :=
  List.insertionSort updatedGE (store.filter (listPred userId search filter nowMs))

/-- `getNote` (notes.js lines 60-73): the first note matching id, owner
and liveness has its view counter incremented in place and is returned;
otherwise `undefined` (here `none`) and the store is untouched. -/
def getNote (store : List Note) (userId noteId : String) : Option Note × List Note :=
  match store with
  | [] => (none, [])
  | n :: rest =>
    if n.id == noteId && n.owner == userId && !n.isDeleted then
      (some { n with views := n.views + 1 }, { n with views := n.views + 1 } :: rest)
    else
      let (r, rest') := getNote rest userId noteId
      (r, n :: rest')

/-- The update payload sent to `updateNote`: the request body may carry
any fields, but only the five whitelisted ones are read by the code; the
others (id, owner, views, timestamps, deletion state) are carried here
to show they are ignored. -/
structure UpdateData where
  title : Option String := none
  content : Option String := none
  isPublic : Option Bool := none
  tags : Option (List String) := none
  category : Option String := none
  id : Option String := none
  owner : Option String := none
  views : Option Nat := none
  createdAt : Option Nat := none
  updatedAt : Option Nat := none
  isDeleted : Option Bool := none
  deletedAt : Option Nat := none
  deriving Repr, DecidableEq

/-- The field-wise effect of `updateNote`'s whitelist loop (notes.js
lines 112-119): each of `title, content, isPublic, tags, category`
present in the patch overwrites the note's field, everything else in
the patch is ignored, and `updatedAt` is set to now. -/
def applyPatch (n : Note) (d : UpdateData) (nowMs : Nat) : Note :=
  { n with
    title := d.title.getD n.title,
    content := d.content.getD n.content,
    isPublic := d.isPublic.getD n.isPublic,
    tags := d.tags.getD n.tags,
    category := d.category.getD n.category,
    updatedAt := nowMs }

/-- `updateNote` (notes.js lines 101-126): the first note matching id,
owner and liveness is patched in place through the whitelist and
returned; `null` (here `none`) otherwise. -/
def updateNote (store : List Note) (userId noteId : String) (d : UpdateData)
    (nowMs : Nat) : Option Note × List Note :=
  match store with
  | [] => (none, [])
  | n :: rest =>
    if n.id == noteId && n.owner == userId && !n.isDeleted then
      (some (applyPatch n d nowMs), applyPatch n d nowMs :: rest)
    else
      let (r, rest') := updateNote rest userId noteId d nowMs
      (r, n :: rest')

/-- `deleteNote` (notes.js lines 129-146): soft delete - the first note
matching id, owner and liveness gets `isDeleted := true` and a deletion
timestamp, and `true` is returned; `false` otherwise. -/
def deleteNote (store : List Note) (userId noteId : String) (nowMs : Nat) :
    Bool × List Note :=
  match store with
  | [] => (false, [])
  | n :: rest =>
    if n.id == noteId && n.owner == userId && !n.isDeleted then
      (true, { n with isDeleted := true, deletedAt := some nowMs } :: rest)
    else
      let (b, rest') := deleteNote rest userId noteId nowMs
      (b, n :: rest')

/-! ## Theorems -/

/-- Claim C10: for every input token (malformed, badly signed, tampered,
expired, or naming an absent or inactive user), `verifyTokenSync` returns
normally with either a decoded payload or `null` - the `catch` swallows
every `jwt.verify` error - so the `requireAuth` middleware's 500
internal-error branch is unreachable from token-shape input alone. -/
theorem verifyTokenSync_never_throws (users : List User) (sessions : List Session)
    (token : Option TokenInput) (sessionHeader : Option String) (nowSec nowMs : Nat) :
    (∀ t : TokenInput, verifyTokenSync users t nowSec = none ∨
      ∃ p, verifyTokenSync users t nowSec = some p)
    ∧ (requireAuth users sessions token sessionHeader nowSec nowMs).1 ≠
        AuthOutcome.internalError := by
  constructor
  · intro t
    match h : verifyTokenSync users t nowSec with
    | none => exact Or.inl rfl
    | some p => exact Or.inr ⟨p, rfl⟩
  · unfold requireAuth requireAuthBody
    rcases token with _ | t
    · simp [pure, Except.pure]
    · rcases h : verifyTokenSync users t nowSec with _ | p
      · simp [h, pure, Except.pure]
      · rcases sessionHeader with _ | sid <;> simp [h, pure, Except.pure]

/-- Claim C2 (code bug): `createNote` performs no validation at all - a
request with empty title and empty content succeeds and the note is
appended to the store, although the repository's own `Note` model
declares both fields required with maximum lengths 200 and 50,000. -/
theorem createNote_accepts_empty_title_content :
    (createNote [] "u1" "" "" none none none "n1" 0).1.title = ""
    ∧ (createNote [] "u1" "" "" none none none "n1" 0).1.content = ""
    ∧ (createNote [] "u1" "" "" none none none "n1" 0).2 =
        [(createNote [] "u1" "" "" none none none "n1" 0).1] :=
  ⟨rfl, rfl, rfl⟩

/-- Claim C4: a login attempt with an unknown username and one with a
known username but a wrong password surface errors with identical
content - both throw `Invalid username or password`. -/
theorem login_error_no_username_disclosure
    (users : List User) (sessions : List Session)
    (u1 p1 u2 p2 : String) (nowMs : Nat) (sid : String)
    (hu1 : u1 ≠ "") (hp1 : p1 ≠ "") (hu2 : u2 ≠ "") (hp2 : p2 ≠ "")
    (hunknown : findUser users u1 = none)
    (user : User) (hfound : findUser users u2 = some user)
    (hwrong : bcryptCompare p2 user.password = false) :
    ∃ e, (login users sessions u1 p1 nowMs sid).1 = .error e
      ∧ (login users sessions u2 p2 nowMs sid).1 = .error e := by
  refine ⟨"Invalid username or password", ?_, ?_⟩
  · have hc : (u1 == "" || p1 == "") = false := by simp [hu1, hp1]
    simp [login, hc, hunknown]
  · have hc : (u2 == "" || p2 == "") = false := by simp [hu2, hp2]
    simp [login, hc, hfound, hwrong]

/-- A concrete active user for the witnesses and counterexamples. -/
def alice : User :=
  { id := "u1", username := "alice", password := bcryptHash "pw1",
    createdAt := 0, lastLogin := none, isActive := true }

/-- Witness for C4 at a concrete store: unknown user `mallory` versus
`alice` with a wrong password. -/
theorem login_error_no_username_disclosure_witness :
    "mallory" ≠ "" ∧ "x" ≠ "" ∧ "alice" ≠ "" ∧ "wrong" ≠ ""
    ∧ findUser [alice] "mallory" = none
    ∧ findUser [alice] "alice" = some alice
    ∧ bcryptCompare "wrong" alice.password = false
    ∧ ∃ e, (login [alice] [] "mallory" "x" 0 "s1").1 = .error e
        ∧ (login [alice] [] "alice" "wrong" 0 "s1").1 = .error e :=
  ⟨by decide, by decide, by decide, by decide, by decide, by decide, by decide,
   login_error_no_username_disclosure [alice] [] "mallory" "x" "alice" "wrong" 0 "s1"
     (by decide) (by decide) (by decide) (by decide) (by decide)
     alice (by decide) (by decide)⟩

/-- The payload of the token issued by `login [alice] [] "alice" "pw1" 0 "s1"`. -/
def alicePayload : Payload :=
  { id := "u1", username := "alice", sessionId := "s1", iat := 0, exp := 86400 }

/-- Claim C1 is false on the code: `alice` logs in and receives a token
bound to session `s1`; the session is then revoked (`logout` deletes it),
yet at time 100 s - far before the 86400 s expiry - `requireAuth` still
accepts the token, because `verifyTokenSync` checks only the signature,
the expiry and the user record, never the session registry. -/
theorem token_accepted_after_logout_cex :
    (login [alice] [] "alice" "pw1" 0 "s1").1 =
      .ok { token := .signed alicePayload SECRET, userId := "u1",
            userLastLogin := some 0, sessionId := "s1" }
    ∧ logout (login [alice] [] "alice" "pw1" 0 "s1").2.2 "s1" = (true, [])
    ∧ (requireAuth (login [alice] [] "alice" "pw1" 0 "s1").2.1 []
        (some (.signed alicePayload SECRET)) none 100 100000).1 =
        AuthOutcome.ok alicePayload := by
  refine ⟨rfl, by decide, by decide⟩

/-- Claim C1 (amended): revoking a session does not invalidate the tokens
referencing it.  A well-signed, unexpired token whose user exists and is
active is accepted by the protected-route authentication against every
session store - in particular after `logout` has removed the embedded
session - because token verification never consults the session registry. -/
theorem requireAuth_ignores_session_revocation
    (users : List User) (sessions : List Session) (p : Payload) (sid : String)
    (nowSec nowMs : Nat) (u : User)
    (hexp : nowSec < p.exp)
    (hfind : findUserById users p.id = some u)
    (hactive : u.isActive = true) :
    (requireAuth users (logout sessions sid).2 (some (.signed p SECRET))
        none nowSec nowMs).1 = AuthOutcome.ok p
    ∧ (requireAuth users sessions (some (.signed p SECRET)) none nowSec nowMs).1 =
        AuthOutcome.ok p := by
  have hsync : verifyTokenSync users (.signed p SECRET) nowSec = some p := by
    simp [verifyTokenSync, verifyTokenSyncBody, jwtVerify, Nat.not_le.mpr hexp,
      hfind, hactive, bind, Except.bind, pure, Except.pure]
  constructor <;> simp [requireAuth, requireAuthBody, hsync, pure, Except.pure]

/-- Witness for the amended C1 at the concrete post-logout state of
`token_accepted_after_logout_cex`'s scenario. -/
theorem requireAuth_ignores_session_revocation_witness :
    (100 : Nat) < alicePayload.exp
    ∧ findUserById [alice] alicePayload.id = some alice
    ∧ alice.isActive = true
    ∧ (requireAuth [alice] (logout [] "s1").2 (some (.signed alicePayload SECRET))
        none 100 100000).1 = AuthOutcome.ok alicePayload
    ∧ (requireAuth [alice] [] (some (.signed alicePayload SECRET))
        none 100 100000).1 = AuthOutcome.ok alicePayload :=
  ⟨by decide, by decide, by decide,
   (requireAuth_ignores_session_revocation [alice] [] alicePayload "s1" 100 100000 alice
     (by decide) (by decide) (by decide)).1,
   (requireAuth_ignores_session_revocation [alice] [] alicePayload "s1" 100 100000 alice
     (by decide) (by decide) (by decide)).2⟩

/-- A concrete user whose active flag is off but whose password matches. -/
def inactiveBob : User :=
  { id := "u9", username := "bob", password := bcryptHash "pw",
    createdAt := 0, lastLogin := none, isActive := false }

/-- Claim C3 is false on the code: `login` never consults the active
flag, so a user whose `isActive` is false still logs in successfully
with the correct password. -/
theorem login_succeeds_for_inactive_user_cex :
    (∃ r, (login [inactiveBob] [] "bob" "pw" 5 "s9").1 = .ok r)
    ∧ inactiveBob.isActive = false := by
  exact ⟨⟨_, rfl⟩, rfl⟩

/-- When `findUser` locates a user, the store splits at the first
username match and `touchLastLogin` rewrites exactly that record. -/
theorem touchLastLogin_decomp (users : List User) (u : String) (nowMs : Nat)
    (user : User) (h : findUser users u = some user) :
    ∃ l₁ l₂, users = l₁ ++ user :: l₂
      ∧ touchLastLogin users u nowMs = l₁ ++ { user with lastLogin := some nowMs } :: l₂ := by
  induction users with
  | nil => simp [findUser] at h
  | cons x rest ih =>
    by_cases hx : x.username = u
    · have hfind : findUser (x :: rest) u = some x := by
        simp [findUser, List.find?_cons, hx]
      rw [hfind] at h
      obtain rfl : x = user := by injection h
      exact ⟨[], rest, rfl, by simp [touchLastLogin, hx]⟩
    · have hfind : findUser (x :: rest) u = findUser rest u := by
        simp [findUser, List.find?_cons, hx]
      rw [hfind] at h
      obtain ⟨l₁, l₂, hsplit, htouch⟩ := ih h
      exact ⟨x :: l₁, l₂, by simp [hsplit],
        by simp [touchLastLogin, hx, htouch]⟩

/-- Claim C3 (amended): with non-empty credentials and distinct stored
usernames, `login` succeeds iff a user with username `u` exists whose
stored hash matches `p` - the active flag is NOT consulted - and on
success exactly that user's last-login timestamp is refreshed. -/
theorem login_ok_iff_username_and_password_match
    (users : List User) (sessions : List Session) (u p : String)
    (nowMs : Nat) (sid : String)
    (hu : u ≠ "") (hp : p ≠ "")
    (hnodup : (users.map User.username).Nodup) :
    ((∃ r, (login users sessions u p nowMs sid).1 = .ok r) ↔
      ∃ user ∈ users, user.username = u ∧ bcryptCompare p user.password = true)
    ∧ (∀ r, (login users sessions u p nowMs sid).1 = .ok r →
        ∃ l₁ user l₂, users = l₁ ++ user :: l₂ ∧ user.username = u
          ∧ (login users sessions u p nowMs sid).2.1 =
              l₁ ++ { user with lastLogin := some nowMs } :: l₂) := by
  have hc : (u == "" || p == "") = false := by simp [hu, hp]
  constructor
  · constructor
    · rintro ⟨r, hr⟩
      rcases hfind : findUser users u with _ | user
      · simp [login, hc, hfind] at hr
      · rcases hcmp : bcryptCompare p user.password with _ | _
        · simp [login, hc, hfind, hcmp] at hr
        · refine ⟨user, List.mem_of_find?_eq_some hfind, ?_, hcmp⟩
          have := List.find?_some hfind
          simpa using this
    · rintro ⟨user, hmem, huser, hcmp⟩
      rcases hfind : findUser users u with _ | found
      · exfalso
        rw [findUser, List.find?_eq_none] at hfind
        exact hfind user hmem (by simp [huser])
      · have hfoundmem := List.mem_of_find?_eq_some hfind
        have hfoundname : found.username = u := by
          have := List.find?_some hfind
          simpa using this
        have : user = found :=
          List.inj_on_of_nodup_map hnodup hmem hfoundmem (huser.trans hfoundname.symm)
        subst this
        have hok : (login users sessions u p nowMs sid).1 =
            .ok ⟨.signed ⟨user.id, user.username, sid, nowMs / 1000,
                    nowMs / 1000 + 24 * 60 * 60⟩ SECRET, user.id, some nowMs, sid⟩ := by
          simp [login, hc, hfind, hcmp]
        exact ⟨_, hok⟩
  · intro r hr
    rcases hfind : findUser users u with _ | user
    · simp [login, hc, hfind] at hr
    · rcases hcmp : bcryptCompare p user.password with _ | _
      · simp [login, hc, hfind, hcmp] at hr
      · obtain ⟨l₁, l₂, hsplit, htouch⟩ := touchLastLogin_decomp users u nowMs user hfind
        have hname : user.username = u := by
          have := List.find?_some hfind
          simpa using this
        exact ⟨l₁, user, l₂, hsplit, hname, by simp [login, hc, hfind, hcmp, htouch]⟩

/-- Witness for the amended C3: `alice` logs in with the right password,
and her last-login timestamp is the only record rewritten. -/
theorem login_ok_iff_username_and_password_match_witness :
    "alice" ≠ "" ∧ "pw1" ≠ ""
    ∧ (([alice].map User.username).Nodup)
    ∧ ((∃ r, (login [alice] [] "alice" "pw1" 7 "s1").1 = .ok r) ↔
        ∃ user ∈ [alice], user.username = "alice"
          ∧ bcryptCompare "pw1" user.password = true)
    ∧ (∀ r, (login [alice] [] "alice" "pw1" 7 "s1").1 = .ok r →
        ∃ l₁ user l₂, [alice] = l₁ ++ user :: l₂ ∧ user.username = "alice"
          ∧ (login [alice] [] "alice" "pw1" 7 "s1").2.1 =
              l₁ ++ { user with lastLogin := some 7 } :: l₂) :=
  ⟨by decide, by decide, by decide,
   (login_ok_iff_username_and_password_match [alice] [] "alice" "pw1" 7 "s1"
     (by decide) (by decide) (by decide)).1,
   (login_ok_iff_username_and_password_match [alice] [] "alice" "pw1" 7 "s1"
     (by decide) (by decide) (by decide)).2⟩

/-- Claim C5: with `maxRequests = 5`, `windowMs = 300000`, six requests
at non-decreasing times all inside the first window: the first five pass,
the sixth is rejected with
`retryAfter = ceil((resetTime - now)/1000) ≤ 300`; and any request
arriving strictly after a window's reset time passes and starts a
fresh window with count 1. -/
theorem rateLimit_sixth_request_rejected
    (t1 t2 t3 t4 t5 t6 : Nat)
    (h12 : t1 ≤ t2) (h23 : t2 ≤ t3) (h34 : t3 ≤ t4) (h45 : t4 ≤ t5) (h56 : t5 ≤ t6)
    (hwin : t6 ≤ t1 + 300000) :
    (runRequests 5 300000 none [t1, t2, t3, t4, t5, t6]).1 =
      [.allow, .allow, .allow, .allow, .allow,
       .reject ((t1 + 300000 - t6 + 999) / 1000)]
    ∧ (t1 + 300000 - t6 + 999) / 1000 ≤ 300
    ∧ ∀ (e : RateEntry) (t' : Nat), e.resetTime < t' →
        rateStep 5 300000 (some e) t' = (.allow, { count := 1, resetTime := t' + 300000 }) := by
  have hn2 : ¬ (t1 + 300000 < t2) := by omega
  have hn3 : ¬ (t1 + 300000 < t3) := by omega
  have hn4 : ¬ (t1 + 300000 < t4) := by omega
  have hn5 : ¬ (t1 + 300000 < t5) := by omega
  have hn6 : ¬ (t1 + 300000 < t6) := by omega
  refine ⟨?_, by omega, ?_⟩
  · simp [runRequests, rateStep, hn2, hn3, hn4, hn5, hn6]
  · intro e t' h
    simp [rateStep, h]

/-- Witness for C5 with all six requests at time 0. -/
theorem rateLimit_sixth_request_rejected_witness :
    (0 : Nat) ≤ 0 ∧ (0 : Nat) ≤ 0 + 300000
    ∧ ((runRequests 5 300000 none [0, 0, 0, 0, 0, 0]).1 =
        [.allow, .allow, .allow, .allow, .allow,
         .reject ((0 + 300000 - 0 + 999) / 1000)]
      ∧ (0 + 300000 - 0 + 999) / 1000 ≤ 300
      ∧ ∀ (e : RateEntry) (t' : Nat), e.resetTime < t' →
          rateStep 5 300000 (some e) t' =
            (.allow, { count := 1, resetTime := t' + 300000 })) :=
  ⟨le_refl 0, by omega,
   rateLimit_sixth_request_rejected 0 0 0 0 0 0 (le_refl 0) (le_refl 0) (le_refl 0)
     (le_refl 0) (le_refl 0) (by omega)⟩

/-- Claim C6: `listNotes` returns a rearrangement of exactly the
non-deleted notes owned by the caller that pass the optional
case-insensitive search (title, content, or any tag) and the optional
filter (public / private / recent within 7 days of now), ordered by
last-update time descending. -/
theorem listNotes_exactly_matching_sorted
    (store : List Note) (userId : String) (search filter : Option String) (nowMs : Nat) :
    (listNotes store userId search filter nowMs).Perm
        (store.filter (listPred userId search filter nowMs))
    ∧ (∀ n, n ∈ listNotes store userId search filter nowMs ↔
        n ∈ store ∧ n.owner = userId ∧ n.isDeleted = false
          ∧ matchesSearch search n = true ∧ matchesFilter filter nowMs n = true)
    ∧ (listNotes store userId search filter nowMs).Sorted updatedGE := by
  refine ⟨List.perm_insertionSort _ _, ?_, List.sorted_insertionSort _ _⟩
  intro n
  rw [listNotes, (List.perm_insertionSort _ _).mem_iff, List.mem_filter, listPred]
  simp [and_assoc]

/-- The live-ownership condition all three note lookups test. -/
def liveMatch (uid nid : String) (m : Note) : Prop :=
  m.id = nid ∧ m.owner = uid ∧ m.isDeleted = false

/-- The Bool guard of the lookups is false exactly on non-matching notes. -/
theorem guard_false_of_not_liveMatch (uid nid : String) (m : Note)
    (h : ¬ liveMatch uid nid m) :
    (m.id == nid && m.owner == uid && !m.isDeleted) = false := by
  rw [liveMatch] at h
  by_contra hb
  rw [Bool.not_eq_false, Bool.and_eq_true, Bool.and_eq_true] at hb
  exact h ⟨by simpa using hb.1.1, by simpa using hb.1.2, by simpa using hb.2⟩

/-- `getNote` on a store with no live owned note of that id: `undefined`
and an untouched store. -/
theorem getNote_eq_of_no_match (store : List Note) (uid nid : String)
    (h : ∀ m ∈ store, ¬ liveMatch uid nid m) :
    getNote store uid nid = (none, store) := by
  induction store with
  | nil => rfl
  | cons m rest ih =>
    have hb := guard_false_of_not_liveMatch uid nid m (h m (List.mem_cons_self m rest))
    simp [getNote, hb, ih (fun x hx => h x (List.mem_cons_of_mem _ hx))]

/-- `getNote` at the first live owned note of the given id: the view
counter of exactly that note is incremented, in the returned note and in
the store. -/
theorem getNote_eq_of_found (l₁ l₂ : List Note) (n : Note) (uid nid : String)
    (h₁ : ∀ m ∈ l₁, ¬ liveMatch uid nid m)
    (hn : liveMatch uid nid n) :
    getNote (l₁ ++ n :: l₂) uid nid =
      (some { n with views := n.views + 1 }, l₁ ++ { n with views := n.views + 1 } :: l₂) := by
  induction l₁ with
  | nil =>
    obtain ⟨hid, hown, hlive⟩ := hn
    simp [getNote, hid, hown, hlive]
  | cons m rest ih =>
    have hb := guard_false_of_not_liveMatch uid nid m (h₁ m (List.mem_cons_self m rest))
    simp [getNote, hb, ih (fun x hx => h₁ x (List.mem_cons_of_mem _ hx))]

/-- `deleteNote` on a store with no live owned note of that id: `false`
and an untouched store. -/
theorem deleteNote_eq_of_no_match (store : List Note) (uid nid : String) (nowMs : Nat)
    (h : ∀ m ∈ store, ¬ liveMatch uid nid m) :
    deleteNote store uid nid nowMs = (false, store) := by
  induction store with
  | nil => rfl
  | cons m rest ih =>
    have hb := guard_false_of_not_liveMatch uid nid m (h m (List.mem_cons_self m rest))
    simp [deleteNote, hb, ih (fun x hx => h x (List.mem_cons_of_mem _ hx))]

/-- `deleteNote` at the first live owned note of the given id: that note
alone is flagged deleted and timestamped. -/
theorem deleteNote_eq_of_found (l₁ l₂ : List Note) (n : Note) (uid nid : String)
    (nowMs : Nat) (h₁ : ∀ m ∈ l₁, ¬ liveMatch uid nid m)
    (hn : liveMatch uid nid n) :
    deleteNote (l₁ ++ n :: l₂) uid nid nowMs =
      (true, l₁ ++ { n with isDeleted := true, deletedAt := some nowMs } :: l₂) := by
  induction l₁ with
  | nil =>
    obtain ⟨hid, hown, hlive⟩ := hn
    simp [deleteNote, hid, hown, hlive]
  | cons m rest ih =>
    have hb := guard_false_of_not_liveMatch uid nid m (h₁ m (List.mem_cons_self m rest))
    simp [deleteNote, hb, ih (fun x hx => h₁ x (List.mem_cons_of_mem _ hx))]

/-- `updateNote` on a store with no live owned note of that id: `null`
and an untouched store. -/
theorem updateNote_eq_of_no_match (store : List Note) (uid nid : String)
    (d : UpdateData) (nowMs : Nat) (h : ∀ m ∈ store, ¬ liveMatch uid nid m) :
    updateNote store uid nid d nowMs = (none, store) := by
  induction store with
  | nil => rfl
  | cons m rest ih =>
    have hb := guard_false_of_not_liveMatch uid nid m (h m (List.mem_cons_self m rest))
    simp [updateNote, hb, ih (fun x hx => h x (List.mem_cons_of_mem _ hx))]

/-- `updateNote` at the first live owned note of the given id: that note
alone is patched. -/
theorem updateNote_eq_of_found (l₁ l₂ : List Note) (n : Note) (uid nid : String)
    (d : UpdateData) (nowMs : Nat) (h₁ : ∀ m ∈ l₁, ¬ liveMatch uid nid m)
    (hn : liveMatch uid nid n) :
    updateNote (l₁ ++ n :: l₂) uid nid d nowMs =
      (some (applyPatch n d nowMs), l₁ ++ applyPatch n d nowMs :: l₂) := by
  induction l₁ with
  | nil =>
    obtain ⟨hid, hown, hlive⟩ := hn
    simp [updateNote, hid, hown, hlive]
  | cons m rest ih =>
    have hb := guard_false_of_not_liveMatch uid nid m (h₁ m (List.mem_cons_self m rest))
    simp [updateNote, hb, ih (fun x hx => h₁ x (List.mem_cons_of_mem _ hx))]

/-- Claim C9: `getNote` returns `none` and leaves the store untouched
whenever no live note of the caller carries the id (absent, foreign, or
soft-deleted); on the first live owned match it returns the note with
its view counter incremented by one, every other field and every other
note unchanged. -/
theorem getNote_spec (l₁ l₂ : List Note) (n : Note) (uid nid : String)
    (h₁ : ∀ m ∈ l₁, ¬ liveMatch uid nid m)
    (hid : n.id = nid) (hown : n.owner = uid) (hlive : n.isDeleted = false) :
    (∀ store : List Note, (∀ m ∈ store, ¬ liveMatch uid nid m) →
        getNote store uid nid = (none, store))
    ∧ ∃ r, getNote (l₁ ++ n :: l₂) uid nid = (some r, l₁ ++ r :: l₂)
        ∧ r.views = n.views + 1
        ∧ r.id = n.id ∧ r.owner = n.owner ∧ r.title = n.title ∧ r.content = n.content
        ∧ r.isPublic = n.isPublic ∧ r.tags = n.tags ∧ r.category = n.category
        ∧ r.createdAt = n.createdAt ∧ r.updatedAt = n.updatedAt
        ∧ r.isDeleted = n.isDeleted ∧ r.deletedAt = n.deletedAt := by
  refine ⟨fun store h => getNote_eq_of_no_match store uid nid h, ?_⟩
  exact ⟨_, getNote_eq_of_found l₁ l₂ n uid nid h₁ ⟨hid, hown, hlive⟩,
    rfl, rfl, rfl, rfl, rfl, rfl, rfl, rfl, rfl, rfl, rfl, rfl⟩

/-- A concrete live note for the witnesses. -/
def note1 : Note :=
  { id := "n1", owner := "u1", title := "A", content := "B", isPublic := false,
    tags := ["work"], category := "General", views := 0, createdAt := 0,
    updatedAt := 0, isDeleted := false, deletedAt := none }

/-- Witness for C9 on the one-note store `[note1]`. -/
theorem getNote_spec_witness :
    (∀ m ∈ ([] : List Note), ¬ liveMatch "u1" "n1" m)
    ∧ note1.id = "n1" ∧ note1.owner = "u1" ∧ note1.isDeleted = false
    ∧ ((∀ store : List Note, (∀ m ∈ store, ¬ liveMatch "u1" "n1" m) →
          getNote store "u1" "n1" = (none, store))
      ∧ ∃ r, getNote ([] ++ note1 :: []) "u1" "n1" = (some r, [] ++ r :: [])
          ∧ r.views = note1.views + 1
          ∧ r.id = note1.id ∧ r.owner = note1.owner ∧ r.title = note1.title
          ∧ r.content = note1.content ∧ r.isPublic = note1.isPublic
          ∧ r.tags = note1.tags ∧ r.category = note1.category
          ∧ r.createdAt = note1.createdAt ∧ r.updatedAt = note1.updatedAt
          ∧ r.isDeleted = note1.isDeleted ∧ r.deletedAt = note1.deletedAt) :=
  ⟨by simp, rfl, rfl, rfl,
   getNote_spec [] [] note1 "u1" "n1" (by simp) rfl rfl rfl⟩

/-- Claim C7: soft-deleting an owned live note flags it deleted with a
deletion timestamp and returns `true`; afterwards the note is gone from
`get` and from every `list` result, a second delete returns `false`, and
deleting an absent, foreign or already-deleted note returns `false`
without touching the store. -/
theorem deleteNote_spec (l₁ l₂ : List Note) (n : Note) (uid nid : String) (nowMs : Nat)
    (hids : ((l₁ ++ n :: l₂).map Note.id).Nodup)
    (hid : n.id = nid) (hown : n.owner = uid) (hlive : n.isDeleted = false) :
    deleteNote (l₁ ++ n :: l₂) uid nid nowMs =
      (true, l₁ ++ { n with isDeleted := true, deletedAt := some nowMs } :: l₂)
    ∧ (getNote (l₁ ++ { n with isDeleted := true, deletedAt := some nowMs } :: l₂) uid nid).1
        = none
    ∧ (∀ (search filter : Option String) (t : Nat),
        ∀ m ∈ listNotes (l₁ ++ { n with isDeleted := true, deletedAt := some nowMs } :: l₂)
            uid search filter t, m.id ≠ nid)
    ∧ (∀ now₂ : Nat,
        (deleteNote (l₁ ++ { n with isDeleted := true, deletedAt := some nowMs } :: l₂)
          uid nid now₂).1 = false)
    ∧ (∀ (store₂ : List Note) (now₃ : Nat), (∀ m ∈ store₂, ¬ liveMatch uid nid m) →
        deleteNote store₂ uid nid now₃ = (false, store₂)) := by
  have hmap := hids
  rw [List.map_append, List.map_cons] at hmap
  have hdisj : List.Disjoint (l₁.map Note.id) (n.id :: l₂.map Note.id) :=
    List.disjoint_of_nodup_append hmap
  have hcons : (n.id :: l₂.map Note.id).Nodup := hmap.of_append_right
  have hnotin₂ : n.id ∉ l₂.map Note.id := (List.nodup_cons.mp hcons).1
  have h₁ : ∀ m ∈ l₁, ¬ liveMatch uid nid m := by
    intro m hm hlm
    exact hdisj (List.mem_map_of_mem Note.id hm)
      (by simp [hlm.1, hid])
  have h₂ : ∀ m ∈ l₂, ¬ liveMatch uid nid m := by
    intro m hm hlm
    exact hnotin₂ (by
      have : m.id = n.id := hlm.1.trans hid.symm
      exact this ▸ List.mem_map_of_mem Note.id hm)
  have hall : ∀ m ∈ l₁ ++ { n with isDeleted := true, deletedAt := some nowMs } :: l₂,
      ¬ liveMatch uid nid m := by
    intro m hm
    rcases List.mem_append.mp hm with hm₁ | hm₂
    · exact h₁ m hm₁
    · rcases List.mem_cons.mp hm₂ with rfl | hm₃
      · rintro ⟨_, _, hd⟩
        simp at hd
      · exact h₂ m hm₃
  refine ⟨deleteNote_eq_of_found l₁ l₂ n uid nid nowMs h₁ ⟨hid, hown, hlive⟩,
    ?_, ?_, ?_, fun store₂ now₃ h => deleteNote_eq_of_no_match store₂ uid nid now₃ h⟩
  · rw [getNote_eq_of_no_match _ uid nid hall]
  · intro search filter t m hm hmid
    have hmem := ((List.perm_insertionSort _ _).mem_iff).1 hm
    rw [List.mem_filter] at hmem
    have hpred := hmem.2
    rw [listPred, Bool.and_eq_true, Bool.and_eq_true, Bool.and_eq_true] at hpred
    exact hall m hmem.1
      ⟨hmid, by simpa using hpred.1.1.1, by simpa using hpred.1.1.2⟩
  · intro now₂
    rw [deleteNote_eq_of_no_match _ uid nid now₂ hall]

/-- Witness for C7 on the one-note store `[note1]`. -/
theorem deleteNote_spec_witness :
    (([] ++ note1 :: []).map Note.id).Nodup
    ∧ note1.id = "n1" ∧ note1.owner = "u1" ∧ note1.isDeleted = false
    ∧ deleteNote ([] ++ note1 :: []) "u1" "n1" 9 =
        (true, [] ++ { note1 with isDeleted := true, deletedAt := some 9 } :: [])
    ∧ (getNote ([] ++ { note1 with isDeleted := true, deletedAt := some 9 } :: [])
        "u1" "n1").1 = none
    ∧ (∀ now₂ : Nat,
        (deleteNote ([] ++ { note1 with isDeleted := true, deletedAt := some 9 } :: [])
          "u1" "n1" now₂).1 = false) := by
  have h := deleteNote_spec [] [] note1 "u1" "n1" 9 (by simp) rfl rfl rfl
  exact ⟨by simp, rfl, rfl, rfl, h.1, h.2.1, h.2.2.2.1⟩

/-- Claim C8: on an owned live note, `updateNote` overwrites exactly the
whitelisted fields `{title, content, isPublic, tags, category}` that the
patch supplies, ignores everything else the patch may carry (id, owner,
views, creation time, deletion state are taken from the stored note),
refreshes the last-update timestamp, and leaves every other note in the
store unchanged. -/
theorem updateNote_patch_frame (l₁ l₂ : List Note) (n : Note) (uid nid : String)
    (d : UpdateData) (nowMs : Nat)
    (h₁ : ∀ m ∈ l₁, ¬ liveMatch uid nid m)
    (hid : n.id = nid) (hown : n.owner = uid) (hlive : n.isDeleted = false) :
    ∃ r, updateNote (l₁ ++ n :: l₂) uid nid d nowMs = (some r, l₁ ++ r :: l₂)
      ∧ r.title = d.title.getD n.title ∧ r.content = d.content.getD n.content
      ∧ r.isPublic = d.isPublic.getD n.isPublic ∧ r.tags = d.tags.getD n.tags
      ∧ r.category = d.category.getD n.category
      ∧ r.id = n.id ∧ r.owner = n.owner ∧ r.views = n.views
      ∧ r.createdAt = n.createdAt ∧ r.isDeleted = n.isDeleted
      ∧ r.deletedAt = n.deletedAt ∧ r.updatedAt = nowMs :=
  ⟨_, updateNote_eq_of_found l₁ l₂ n uid nid d nowMs h₁ ⟨hid, hown, hlive⟩,
   rfl, rfl, rfl, rfl, rfl, rfl, rfl, rfl, rfl, rfl, rfl, rfl⟩

/-- Witness for C8: a patch that supplies a new title alongside junk
values for id, views and the deletion flag; only the title and the
last-update timestamp change. -/
theorem updateNote_patch_frame_witness :
    (∀ m ∈ ([] : List Note), ¬ liveMatch "u1" "n1" m)
    ∧ note1.id = "n1" ∧ note1.owner = "u1" ∧ note1.isDeleted = false
    ∧ ∃ r, updateNote ([] ++ note1 :: []) "u1" "n1"
          { title := some "T2", id := some "EVIL", owner := some "mallory",
            views := some 99, isDeleted := some true, createdAt := some 123 } 77 =
          (some r, [] ++ r :: [])
        ∧ r.title = (some "T2").getD note1.title
        ∧ r.content = (Option.getD none note1.content)
        ∧ r.isPublic = (Option.getD none note1.isPublic)
        ∧ r.tags = (Option.getD none note1.tags)
        ∧ r.category = (Option.getD none note1.category)
        ∧ r.id = note1.id ∧ r.owner = note1.owner ∧ r.views = note1.views
        ∧ r.createdAt = note1.createdAt ∧ r.isDeleted = note1.isDeleted
        ∧ r.deletedAt = note1.deletedAt ∧ r.updatedAt = 77 :=
  ⟨by simp, rfl, rfl, rfl,
   updateNote_patch_frame [] [] note1 "u1" "n1"
     { title := some "T2", id := some "EVIL", owner := some "mallory",
       views := some 99, isDeleted := some true, createdAt := some 123 } 77
     (by simp) rfl rfl rfl⟩

end NoteApp
